import Mathlib

/-!
Shallow embedding of the image-resizer HTTP service (`src/main.go`).

The repository supplies orchestration around black-box image codecs
(`image.Decode`, `jpeg/png/gif.Encode`), a black-box resampler
(`draw.CatmullRom.Scale`) and a black-box content sniffer
(`http.DetectContentType`).  Those collaborators are modelled as an
explicit environment (`Env`); everything the repository itself does —
parameter parsing, the dimension arithmetic, the destination-rectangle
construction, format dispatch in `EncodeImage`, the error-to-status
mapping and the response/log writing — is translated from the source.

Go `int` arithmetic is 64-bit two's-complement; multiplication and
division in the thumbnail-height computation are modelled with explicit
wrap-around (`wrap64`), and Go's run-time panic on division by zero is
modelled as `Option.none`.  Bytes are `List Nat`; strings are Lean
`String`s.  Memory allocation failure is not modelled.
-/

/-- Go `image.Rectangle`, restricted to the fields this program uses
(`Min.X`, `Min.Y`, `Max.X`, `Max.Y`). -/
structure GoRect where
  minX : Int
  minY : Int
  maxX : Int
  maxY : Int
deriving DecidableEq, Repr

/-- Go `Rectangle.Dx()`: the width `Max.X - Min.X`. -/
def GoRect.Dx (r : GoRect) : Int := r.maxX - r.minX

/-- Go `Rectangle.Dy()`: the height `Max.Y - Min.Y`. -/
def GoRect.Dy (r : GoRect) : Int := r.maxY - r.minY

/-- Go `image.Rect(x0, y0, x1, y1)`: swaps each coordinate pair into
canonical (min ≤ max) order. -/
def imageRect (x0 y0 x1 y1 : Int) : GoRect :=
  let px := if x1 < x0 then (x1, x0) else (x0, x1)
  let py := if y1 < y0 then (y1, y0) else (y0, y1)
  ⟨px.1, py.1, px.2, py.2⟩

/-- Reduce an integer into the two's-complement range of a 64-bit Go
`int`: the unique representative in `[-2^63, 2^63)` congruent mod
`2^64`. -/
def wrap64 (x : Int) : Int := (x + 2 ^ 63) % 2 ^ 64 - 2 ^ 63

/-- Go 64-bit integer multiplication (wraps on overflow). -/
def goMul (a b : Int) : Int := wrap64 (a * b)

/-- Go 64-bit integer division: truncates toward zero, panics on a zero
divisor (modelled as `none`), and wraps at `MinInt64 / -1`. -/
def goIntDiv (a b : Int) : Option Int :=
  if b = 0 then none else some (wrap64 (Int.tdiv a b))

/-- An in-memory raster (`image.Image` / `image.RGBA`): its bounds
rectangle plus opaque pixel data. -/
structure Img where
  bounds : GoRect
  payload : List Nat
deriving DecidableEq, Repr

/-- Go `image.NewRGBA(r)`: a raster with bounds `r` and a zeroed pixel
buffer of 4 bytes per pixel. -/
def newRGBA (r : GoRect) : Img :=
  ⟨r, List.replicate (4 * (r.Dx * r.Dy).toNat) 0⟩

/-- The black-box collaborators of `main.go`: the registered image
decoders (`image.Decode` returns a raster and a format tag, or fails),
the three standard-library encoders (bytes written plus an optional
error message), the pixel data written by `draw.CatmullRom.Scale`, and
`http.DetectContentType`. -/
structure Env where
  decode : List Nat → Option (Img × String)
  jpegEncode : Img → List Nat × Option String
  pngEncode : Img → List Nat × Option String
  gifEncode : Img → List Nat × Option String
  scalePix : Img → GoRect → Img → List Nat
  detect : List Nat → String

/-- Go `draw.CatmullRom.Scale(dst, rect, src, src.Bounds(), draw.Over, nil)`:
mutates only the destination's pixel buffer; its bounds are untouched. -/
def catmullRomScale (env : Env) (dst : Img) (rect : GoRect) (src : Img) : Img :=
  { dst with payload := env.scalePix dst rect src }

/-- The error values flowing through the handlers: the two sentinel
errors of `main.go`, errors built by `fmt.Errorf` in the handlers, and
errors returned by a standard-library encoder.  Go compares sentinels by
identity, which the separate constructors reproduce. -/
inductive GoErr
  | unsupportedFormat
  | invalidImage
  | errorf (msg : String)
  | encodeErr (msg : String)
deriving DecidableEq, Repr

/-- Go `err.Error()`: the message text of an error value. -/
def GoErr.message : GoErr → String
  | .unsupportedFormat => "unsupported format"
  | .invalidImage => "invalid image"
  | .errorf m => m
  | .encodeErr m => m

/-- The constant `formatJPEG` of `main.go`. -/
def formatJPEG : String := "jpeg"

/-- The constant `formatPNG` of `main.go`. -/
def formatPNG : String := "png"

/-- The constant `formatGIF` of `main.go`. -/
def formatGIF : String := "gif"

/-- The formats `EncodeImage` dispatches on. -/
def supportedFormats : List String := [formatJPEG, formatPNG, formatGIF]

/-- Go `EncodeImage(ctx, img, format)`: a `switch` on the format string;
each supported arm runs the corresponding encoder and returns the buffer
plus its error; the default arm returns the empty buffer and
`ErrUnsupportedFormat`. -/
def EncodeImage (env : Env) (img : Img) (format : String) : List Nat × Option GoErr :=
  if format = formatJPEG then
    let r := env.jpegEncode img
    (r.1, r.2.map GoErr.encodeErr)
  else if format = formatPNG then
    let r := env.pngEncode img
    (r.1, r.2.map GoErr.encodeErr)
  else if format = formatGIF then
    let r := env.gifEncode img
    (r.1, r.2.map GoErr.encodeErr)
  else ([], some GoErr.unsupportedFormat)

/-- Go `ResizeImage(ctx, r, height, width)`: decode (failure returns
`ErrInvalidImage`), build the destination rectangle
`image.Rect(0, 0, width, height)`, allocate the destination raster,
resample into it, and re-encode in the source's detected format. -/
def ResizeImage (env : Env) (body : List Nat) (height width : Int) : List Nat × Option GoErr :=
  match env.decode body with
  | none => ([], some GoErr.invalidImage)
  | some (img, format) =>
    let rect := imageRect 0 0 width height
    let resized := newRGBA rect
    let resized2 := catmullRomScale env resized rect img
    EncodeImage env resized2 format

/-- Go `ConvertImage(ctx, r, format)`: decode (failure returns
`ErrInvalidImage`) and re-encode into the requested format. -/
def ConvertImage (env : Env) (body : List Nat) (format : String) : List Nat × Option GoErr :=
  match env.decode body with
  | none => ([], some GoErr.invalidImage)
  | some (img, _) => EncodeImage env img format

/-- Go `ThumbnailImage(ctx, r, width)`: decode (failure returns
`ErrInvalidImage`), compute `height := rect.Dy() * width / rect.Dx()`
with Go's wrapping multiplication and truncating division (panicking —
`none` — when the decoded width is zero), then resample into
`image.Rect(0, 0, width, height)` and re-encode in the detected
format. -/
def ThumbnailImage (env : Env) (body : List Nat) (width : Int) :
    Option (List Nat × Option GoErr) :=
  match env.decode body with
  | none => some ([], some GoErr.invalidImage)
  | some (img, format) =>
    let rect := img.bounds
    match goIntDiv (goMul rect.Dy width) rect.Dx with
    | none => none
    | some height =>
      let rect2 := imageRect 0 0 width height
      let resized := newRGBA rect2
      let resized2 := catmullRomScale env resized rect2 img
      some (EncodeImage env resized2 format)

/-- Value of a decimal digit character, `none` for a non-digit. -/
def digitVal (c : Char) : Option Nat :=
  if '0' ≤ c ∧ c ≤ '9' then some (c.toNat - '0'.toNat) else none

/-- Accumulate a decimal digit string into a natural number; `none` on
the first non-digit. -/
def parseDigits : List Char → Nat → Option Nat
  | [], acc => some acc
  | c :: cs, acc =>
    match digitVal c with
    | some d => parseDigits cs (10 * acc + d)
    | none => none

/-- Go `strconv.Atoi`: optional sign, then one or more decimal digits,
rejecting anything else and values outside the 64-bit `int` range. -/
def atoi (s : String) : Option Int :=
  let cs := s.data
  let signed : Bool × List Char :=
    match cs with
    | '-' :: rest => (true, rest)
    | '+' :: rest => (false, rest)
    | _ => (false, cs)
  match signed.2 with
  | [] => none
  | ds =>
    match parseDigits ds 0 with
    | none => none
    | some n =>
      let v : Int := if signed.1 then -(n : Int) else (n : Int)
      if -(2 ^ 63) ≤ v ∧ v < 2 ^ 63 then some v else none

/-- An HTTP request as the handlers see it: parsed query parameters and
the request body bytes. -/
structure Req where
  query : List (String × String)
  body : List Nat

/-- Go `url.Values.Get(key)`: the first value for the key, or `""` when
the key is absent. -/
def getParam (q : List (String × String)) (k : String) : String :=
  match q.find? (fun p => p.1 == k) with
  | some p => p.2
  | none => ""

/-- The `http.Handler` values the handlers return: either
`Error(code, err)` or `Image(code, data)`. -/
inductive RespHandler
  | errorH (code : Nat) (err : GoErr)
  | imageH (code : Nat) (data : List Nat)
deriving DecidableEq, Repr

/-- The observable effects of running a returned handler: log lines,
header manipulation, the status line and the body bytes. -/
inductive Event
  | logLine (s : String)
  | setHeader (k v : String)
  | delHeader (k : String)
  | writeHeader (code : Nat)
  | writeBody (data : List Nat)
  | writeString (s : String)
deriving DecidableEq, Repr

/-- Running a returned handler.  `Error(code, err)` (lines 346-351 of
`main.go`) logs the error, then `http.Error` deletes `Content-Length`,
sets `Content-Type` and `X-Content-Type-Options`, writes the status and
the message plus a newline.  `Image(code, data)` (lines 328-336) sniffs
the content type, sets `Content-Type` and `Content-Length`, writes the
status and the bytes. -/
def runRespHandler (env : Env) : RespHandler → List Event
  | .errorH code err =>
    [Event.logLine ("Error: " ++ err.message),
     Event.delHeader "Content-Length",
     Event.setHeader "Content-Type" "text/plain; charset=utf-8",
     Event.setHeader "X-Content-Type-Options" "nosniff",
     Event.writeHeader code,
     Event.writeString (err.message ++ "\n")]
  | .imageH code data =>
    [Event.setHeader "Content-Type" (env.detect data),
     Event.setHeader "Content-Length" (Nat.repr data.length),
     Event.writeHeader code,
     Event.writeBody data]

/-- Go `HandleResize`: validate presence of `height` and `width`, parse
each with `Atoi`, run `ResizeImage`, then map `ErrUnsupportedFormat` to
422, any other error to 500, success to `Image(200, resized)`. -/
def HandleResize (env : Env) (r : Req) : Option RespHandler :=
  let heightParam := getParam r.query "height"
  let widthParam := getParam r.query "width"
  if heightParam = "" ∨ widthParam = "" then
    some (RespHandler.errorH 400 (GoErr.errorf "missing required parameters"))
  else
    match atoi heightParam with
    | none => some (RespHandler.errorH 400 (GoErr.errorf ("invalid height: " ++ heightParam)))
    | some height =>
      match atoi widthParam with
      | none => some (RespHandler.errorH 400 (GoErr.errorf ("invalid width: " ++ widthParam)))
      | some width =>
        let res := ResizeImage env r.body height width
        if res.2 = some GoErr.unsupportedFormat then
          some (RespHandler.errorH 422 GoErr.unsupportedFormat)
        else
          match res.2 with
          | some e => some (RespHandler.errorH 500 e)
          | none => some (RespHandler.imageH 200 res.1)

/-- Go `HandleConvert`: validate presence of `format`, run
`ConvertImage`, map errors exactly as in `HandleResize`. -/
def HandleConvert (env : Env) (r : Req) : Option RespHandler :=
  let format := getParam r.query "format"
  if format = "" then
    some (RespHandler.errorH 400 (GoErr.errorf "missing required parameter: format"))
  else
    let res := ConvertImage env r.body format
    if res.2 = some GoErr.unsupportedFormat then
      some (RespHandler.errorH 422 GoErr.unsupportedFormat)
    else
      match res.2 with
      | some e => some (RespHandler.errorH 500 e)
      | none => some (RespHandler.imageH 200 res.1)

/-- Go `HandleThumbnail`: validate presence of `width`, parse it with
`Atoi`, run `ThumbnailImage`, map errors exactly as in `HandleResize`.
The outer `Option` is the division-by-zero panic inside
`ThumbnailImage`, which propagates out of the handler (`none` = the
handler never returns). -/
def HandleThumbnail (env : Env) (r : Req) : Option (Option RespHandler) :=
  let widthParam := getParam r.query "width"
  if widthParam = "" then
    some (some (RespHandler.errorH 400 (GoErr.errorf "missing required parameter: width")))
  else
    match atoi widthParam with
    | none => some (some (RespHandler.errorH 400 (GoErr.errorf ("invalid width: " ++ widthParam))))
    | some width =>
      match ThumbnailImage env r.body width with
      | none => none
      | some res =>
        if res.2 = some GoErr.unsupportedFormat then
          some (some (RespHandler.errorH 422 GoErr.unsupportedFormat))
        else
          match res.2 with
          | some e => some (some (RespHandler.errorH 500 e))
          | none => some (some (RespHandler.imageH 200 res.1))

/-- Go `Handler.ServeHTTP` (lines 87-91): given the value the wrapped
handler function returned, run it when it is non-nil, otherwise do
nothing. -/
def goServeHTTP (env : Env) (result : Option RespHandler) : List Event :=
  match result with
  | some next => runRespHandler env next
  | none => []

/-- The log lines of an event trace. -/
def logsOf (es : List Event) : List String :=
  es.filterMap fun e => match e with | .logLine s => some s | _ => none

/-- The string bodies (error texts) written in an event trace. -/
def stringBodiesOf (es : List Event) : List String :=
  es.filterMap fun e => match e with | .writeString s => some s | _ => none

/-- How many status lines an event trace writes. -/
def headerWriteCount (es : List Event) : Nat :=
  (es.filter fun e => match e with | .writeHeader _ => true | _ => false).length

/-- How many bodies (image bytes or error text) an event trace writes. -/
def bodyWriteCount (es : List Event) : Nat :=
  (es.filter fun e =>
    match e with | .writeBody _ => true | .writeString _ => true | _ => false).length

/-- The status code a returned handler will write. -/
def respStatus : RespHandler → Nat
  | .errorH code _ => code
  | .imageH code _ => code

/-- The error-to-response mapping shared by the tail of all three
handlers: `ErrUnsupportedFormat` to 422, any other error to 500, and
success to `Image(200, bytes)`. -/
def transformResult : List Nat × Option GoErr → RespHandler
  | (_, some e) =>
    if e = GoErr.unsupportedFormat then .errorH 422 e else .errorH 500 e
  | (data, none) => .imageH 200 data

/-- Go `Flags` (lines 60-65): the parsed configuration. -/
structure Flags where
  Host : String
  Port : Int
deriving DecidableEq, Repr

/-- The environment-variable key for a flag name:
`strings.ReplaceAll(strings.ToUpper(name), "-", "_")`, modelled per
character (flag names are ASCII). -/
def toEnvKey (s : String) : String :=
  String.mk (s.data.map fun c => if c = '-' then '_' else c.toUpper)

/-- The outcome of Go `strconv.ParseUint`'s digit loop: the accumulated
value together with whether underscores were skipped, a range error
(Go returns the max value and keeps going in `ParseInt`), or a syntax
error. -/
inductive UintResult
  | ok (n : Nat) (underscores : Bool)
  | rangeErr
  | syntaxErr
deriving DecidableEq, Repr

/-- Go strconv's `lower(c)`: sets the 0x20 bit, folding ASCII upper case
onto lower case. -/
def strconvLower (c : Char) : Char := Char.ofNat (c.toNat ||| 32)

/-- Digit classification of Go `strconv.ParseUint`'s loop: `0`-`9` by
value, letters (case-folded) as 10-35, anything else a syntax error. -/
def digitValInBase (c : Char) : Option Nat :=
  if '0' ≤ c ∧ c ≤ '9' then some (c.toNat - '0'.toNat)
  else if 'a' ≤ strconvLower c ∧ strconvLower c ≤ 'z' then
    some ((strconvLower c).toNat - 'a'.toNat + 10)
  else none

/-- The digit loop of Go `strconv.ParseUint(s, 0, 64)`: underscores are
skipped (base 0), a digit at or above the base is a syntax error, and
the two overflow checks (`n >= cutoff` before the multiply, `n1 > maxVal`
after the add) report a range error exactly as Go does — before looking
at the remaining characters. -/
def parseUintLoop (base cutoff maxVal : Nat) :
    List Char → Nat → Bool → UintResult
  | [], n, us => .ok n us
  | c :: cs, n, us =>
    if c = '_' then parseUintLoop base cutoff maxVal cs n true
    else
      match digitValInBase c with
      | none => .syntaxErr
      | some d =>
        if base ≤ d then .syntaxErr
        else if cutoff ≤ n then .rangeErr
        else
          let n1 := n * base + d
          if maxVal < n1 then .rangeErr
          else parseUintLoop base cutoff maxVal cs n1 us

/-- The character classes tracked by Go strconv's `underscoreOK`. -/
inductive SawClass
  | start
  | digit
  | under
  | other
deriving DecidableEq, Repr

/-- The scanning loop of Go strconv's `underscoreOK`: an underscore must
follow and be followed by a digit (or the base prefix), and the string
must not end in an underscore. -/
def underscoreLoop (hex : Bool) : List Char → SawClass → Bool
  | [], saw => saw ≠ SawClass.under
  | c :: cs, saw =>
    if ('0' ≤ c ∧ c ≤ '9') ∨ (hex ∧ 'a' ≤ strconvLower c ∧ strconvLower c ≤ 'f') then
      underscoreLoop hex cs SawClass.digit
    else if c = '_' then
      if saw ≠ SawClass.digit then false else underscoreLoop hex cs SawClass.under
    else if saw = SawClass.under then false
    else underscoreLoop hex cs SawClass.other

/-- Go strconv's `underscoreOK(s0)`: strips an optional sign, treats a
`0b`/`0o`/`0x` prefix as a digit, then runs the scanning loop. -/
def underscoreOK (s : List Char) : Bool :=
  let s1 := match s with
    | c :: rest => if c = '-' ∨ c = '+' then rest else s
    | [] => s
  match s1 with
  | '0' :: c2 :: rest =>
    if c2 = 'b' ∨ c2 = 'B' ∨ c2 = 'o' ∨ c2 = 'O' ∨ c2 = 'x' ∨ c2 = 'X' then
      underscoreLoop (c2 = 'x' ∨ c2 = 'X') rest SawClass.digit
    else underscoreLoop false s1 SawClass.start
  | _ => underscoreLoop false s1 SawClass.start

/-- Go `strconv.ParseUint(s, 0, 64)` on the sign-stripped characters:
base 0 resolves a `0b`/`0o`/`0x` prefix (needing at least one character
after it) or a bare leading `0` to octal, otherwise decimal; then the
digit loop runs with `cutoff = maxUint64/base + 1`, and a string that
used underscores must additionally pass `underscoreOK`. -/
def parseUint0 (s : List Char) : UintResult :=
  match s with
  | [] => .syntaxErr
  | _ =>
    let pick : Nat × List Char :=
      match s with
      | '0' :: c2 :: rest =>
        if (c2 = 'b' ∨ c2 = 'B') ∧ rest ≠ [] then (2, rest)
        else if (c2 = 'o' ∨ c2 = 'O') ∧ rest ≠ [] then (8, rest)
        else if (c2 = 'x' ∨ c2 = 'X') ∧ rest ≠ [] then (16, rest)
        else (8, c2 :: rest)
      | ['0'] => (8, [])
      | _ => (10, s)
    match parseUintLoop pick.1 ((2 ^ 64 - 1) / pick.1 + 1) (2 ^ 64 - 1) pick.2 0 false with
    | .syntaxErr => .syntaxErr
    | .rangeErr => .rangeErr
    | .ok n us => if us ∧ ¬underscoreOK s then .syntaxErr else .ok n us

/-- Go `flag`'s `intValue.Set(s)`, which calls
`strconv.ParseInt(s, 0, strconv.IntSize)` and stores the returned VALUE
even when an error is also returned: 0 on a syntax error, the clamped
64-bit bound on a range error (including an unsigned value at or above
`2^63` under a positive sign). -/
def flagSetInt (s : String) : Int :=
  match s.data with
  | [] => 0
  | cs =>
    let signed : Bool × List Char :=
      match cs with
      | '-' :: rest => (true, rest)
      | '+' :: rest => (false, rest)
      | _ => (false, cs)
    match parseUint0 signed.2 with
    | .syntaxErr => 0
    | .rangeErr => if signed.1 then -(2 ^ 63) else 2 ^ 63 - 1
    | .ok un _ =>
      if ¬signed.1 ∧ 2 ^ 63 ≤ un then 2 ^ 63 - 1
      else if signed.1 ∧ 2 ^ 63 < un then -(2 ^ 63)
      else if signed.1 then -(un : Int) else (un : Int)

/-- Go `ParseFlags` (lines 68-79): register `host`/`port` with their
defaults, overwrite each flag's value from the matching environment
variable when set (`flag.VisitAll` runs before `flag.Parse`), then let
`flag.Parse` overwrite from the command line.  Command-line values are
modelled already parsed, since `flag.Parse` exits on a malformed
argument. -/
def ParseFlags (lookupEnv : String → Option String)
    (argHost : Option String) (argPort : Option Int) : Flags :=
  let host0 := "localhost"
  let port0 : Int := 8080
  let host1 := match lookupEnv (toEnvKey "host") with | some v => v | none => host0
  let port1 := match lookupEnv (toEnvKey "port") with | some v => flagSetInt v | none => port0
  let host2 := match argHost with | some v => v | none => host1
  let port2 := match argPort with | some v => v | none => port1
  ⟨host2, port2⟩

/-- A minimal concrete codec environment used to exercise the pipeline
on closed inputs: a byte list `[tag, w, h]` decodes to a `w × h` raster
(for positive `w`, `h`) tagged `"png"`, every encoder emits
`[2, width, height]`, and the resampler keeps the destination's pixel
buffer. -/
def toyDecode (b : List Nat) : Option (Img × String) :=
  match b with
  | [_, w, h] =>
    if 0 < w ∧ 0 < h then some (⟨imageRect 0 0 (w : Int) (h : Int), []⟩, "png") else none
  | _ => none

/-- The encoder of the toy environment: records the raster's dimensions. -/
def toyEnc (img : Img) : List Nat × Option String :=
  ([2, img.bounds.Dx.toNat, img.bounds.Dy.toNat], none)

/-- The toy environment itself. -/
def toyEnv : Env where
  decode := toyDecode
  jpegEncode := toyEnc
  pngEncode := toyEnc
  gifEncode := toyEnc
  scalePix := fun dst _ _ => dst.payload
  detect := fun _ => "application/octet-stream"

/-- A variant of the toy environment whose decoder returns a raster of
width zero, exercising the division-by-zero path of `ThumbnailImage`. -/
def zeroWidthEnv : Env :=
  { toyEnv with decode := fun _ => some (⟨imageRect 0 0 0 5, []⟩, "png") }

theorem wrap64_eq_self {x : Int} (h1 : -(2 ^ 63) ≤ x) (h2 : x < 2 ^ 63) :
    wrap64 x = x := by
  unfold wrap64
  have h3 : (0 : Int) ≤ x + 2 ^ 63 := by linarith
  have h4 : x + 2 ^ 63 < 2 ^ 64 := by
    have he : (2 : Int) ^ 64 = 2 ^ 63 + 2 ^ 63 := by norm_num
    linarith
  rw [Int.emod_eq_of_lt h3 h4]
  ring

theorem imageRect_of_le {x0 y0 x1 y1 : Int} (hx : x0 ≤ x1) (hy : y0 ≤ y1) :
    imageRect x0 y0 x1 y1 = ⟨x0, y0, x1, y1⟩ := by
  unfold imageRect
  simp [Int.not_lt.mpr hx, Int.not_lt.mpr hy]

theorem imageRect_Dx_of_nonneg {w h : Int} (hw : 0 ≤ w) (hh : 0 ≤ h) :
    (imageRect 0 0 w h).Dx = w := by
  rw [imageRect_of_le hw hh]
  simp [GoRect.Dx]

theorem imageRect_Dy_of_nonneg {w h : Int} (hw : 0 ≤ w) (hh : 0 ≤ h) :
    (imageRect 0 0 w h).Dy = h := by
  rw [imageRect_of_le hw hh]
  simp [GoRect.Dy]

theorem handleResize_parsed (env : Env) (r : Req) {h w : Int}
    (hne : ¬(getParam r.query "height" = "" ∨ getParam r.query "width" = ""))
    (hah : atoi (getParam r.query "height") = some h)
    (haw : atoi (getParam r.query "width") = some w) :
    HandleResize env r = some (transformResult (ResizeImage env r.body h w)) := by
  unfold HandleResize
  rw [if_neg hne, hah, haw]
  dsimp only
  rcases hp : ResizeImage env r.body h w with ⟨data, err⟩
  rcases err with _ | e
  · simp [transformResult]
  · by_cases he : e = GoErr.unsupportedFormat
    · subst he
      simp [transformResult]
    · simp [transformResult, he]

theorem handleConvert_parsed (env : Env) (r : Req)
    (hne : ¬getParam r.query "format" = "") :
    HandleConvert env r =
      some (transformResult (ConvertImage env r.body (getParam r.query "format"))) := by
  unfold HandleConvert
  rw [if_neg hne]
  dsimp only
  rcases hp : ConvertImage env r.body (getParam r.query "format") with ⟨data, err⟩
  rcases err with _ | e
  · simp [transformResult]
  · by_cases he : e = GoErr.unsupportedFormat
    · subst he
      simp [transformResult]
    · simp [transformResult, he]

theorem handleThumbnail_parsed (env : Env) (r : Req) {w : Int}
    (hne : ¬getParam r.query "width" = "")
    (haw : atoi (getParam r.query "width") = some w) :
    HandleThumbnail env r =
      (ThumbnailImage env r.body w).map (fun res => some (transformResult res)) := by
  unfold HandleThumbnail
  rw [if_neg hne, haw]
  dsimp only
  rcases hp : ThumbnailImage env r.body w with _ | ⟨data, err⟩
  · rfl
  · rcases err with _ | e
    · simp [transformResult]
    · by_cases he : e = GoErr.unsupportedFormat
      · subst he
        simp [transformResult]
      · simp [transformResult, he]

/-- C6: every error response's body is exactly the error's message text
followed by a trailing newline; the same message is logged exactly once,
and the log line is emitted before the status line and body are written
(it is the first event of the trace).  The client receives the same
message text as was logged. -/
theorem error_response_logs_and_echoes_message (env : Env) (code : Nat) (err : GoErr) :
    runRespHandler env (.errorH code err) =
      [Event.logLine ("Error: " ++ err.message),
       Event.delHeader "Content-Length",
       Event.setHeader "Content-Type" "text/plain; charset=utf-8",
       Event.setHeader "X-Content-Type-Options" "nosniff",
       Event.writeHeader code,
       Event.writeString (err.message ++ "\n")] ∧
    logsOf (runRespHandler env (.errorH code err)) = ["Error: " ++ err.message] ∧
    stringBodiesOf (runRespHandler env (.errorH code err)) = [err.message ++ "\n"] :=
  ⟨rfl, rfl, rfl⟩

/-- C8: a success response carries exactly the encoded bytes handed to
`Image`, a `Content-Type` obtained by sniffing those bytes, and a
`Content-Length` equal to their count; and on every route a successful
transform (no error) is turned into `Image(200, bytes)` with the
transform's own output bytes. -/
theorem success_response_headers_and_bytes (env : Env) (code : Nat) (data : List Nat) :
    runRespHandler env (.imageH code data) =
      [Event.setHeader "Content-Type" (env.detect data),
       Event.setHeader "Content-Length" (Nat.repr data.length),
       Event.writeHeader code,
       Event.writeBody data] ∧
    (∀ d : List Nat, transformResult (d, none) = RespHandler.imageH 200 d) :=
  ⟨rfl, fun _ => rfl⟩

/-- C9: the thumbnail height computation `Dy * width / Dx` divides by
the decoded source width with no zero guard: it is total whenever that
width is non-zero (in particular whenever it is positive) and is a
division by zero — a run-time panic, modelled as `none` — exactly when
the decoded width is zero. -/
theorem thumbnail_height_division_guard :
    (∀ sh w sw : Int, sw ≠ 0 → (goIntDiv (goMul sh w) sw).isSome) ∧
    (∀ sh w : Int, goIntDiv (goMul sh w) 0 = none) ∧
    (∀ (env : Env) (body : List Nat) (img : Img) (fmt : String) (w : Int),
      env.decode body = some (img, fmt) → img.bounds.Dx = 0 →
      ThumbnailImage env body w = none) ∧
    (∀ (env : Env) (body : List Nat) (img : Img) (fmt : String) (w : Int),
      env.decode body = some (img, fmt) → img.bounds.Dx ≠ 0 →
      (ThumbnailImage env body w).isSome) := by
  refine ⟨?_, ?_, ?_, ?_⟩
  · intro sh w sw hsw
    simp [goIntDiv, hsw]
  · intro sh w
    simp [goIntDiv]
  · intro env body img fmt w hdec hdx
    unfold ThumbnailImage
    rw [hdec]
    dsimp only
    rw [hdx]
    simp [goIntDiv]
  · intro env body img fmt w hdec hdx
    unfold ThumbnailImage
    rw [hdec]
    dsimp only
    simp [goIntDiv, hdx]

/-- C9 witness: a decoder yielding a zero-width raster drives the
thumbnail height computation into the division-by-zero panic. -/
theorem thumbnail_height_division_guard_witness :
    ThumbnailImage zeroWidthEnv [] 3 = none :=
  thumbnail_height_division_guard.2.2.1 zeroWidthEnv []
    ⟨imageRect 0 0 0 5, []⟩ "png" 3 rfl (by decide)

/-- C10: each route handler returns a non-nil handler on every path on
which it returns — `HandleResize` and `HandleConvert` unconditionally,
`HandleThumbnail` whenever it returns at all (its only non-returning
path is the division-by-zero panic recorded by C9) — and
`Handler.ServeHTTP` runs a returned non-nil handler, which writes
exactly one status line and one body: never zero, and never both an
image and an error body. -/
theorem handlers_always_respond_once :
    (∀ (env : Env) (r : Req), ∃ rh, HandleResize env r = some rh) ∧
    (∀ (env : Env) (r : Req), ∃ rh, HandleConvert env r = some rh) ∧
    (∀ (env : Env) (r : Req) (o : Option RespHandler),
      HandleThumbnail env r = some o → ∃ rh, o = some rh) ∧
    (∀ (env : Env) (rh : RespHandler),
      headerWriteCount (goServeHTTP env (some rh)) = 1 ∧
      bodyWriteCount (goServeHTTP env (some rh)) = 1) ∧
    (∀ env : Env, goServeHTTP env none = []) := by
  refine ⟨?_, ?_, ?_, ?_, fun _ => rfl⟩
  · intro env r
    by_cases hmiss : getParam r.query "height" = "" ∨ getParam r.query "width" = ""
    · exact ⟨_, by unfold HandleResize; rw [if_pos hmiss]⟩
    · rcases hah : atoi (getParam r.query "height") with _ | h
      · exact ⟨_, by unfold HandleResize; rw [if_neg hmiss, hah]⟩
      · rcases haw : atoi (getParam r.query "width") with _ | w
        · exact ⟨_, by unfold HandleResize; rw [if_neg hmiss, hah, haw]⟩
        · exact ⟨_, handleResize_parsed env r hmiss hah haw⟩
  · intro env r
    by_cases hmiss : getParam r.query "format" = ""
    · exact ⟨_, by unfold HandleConvert; rw [if_pos hmiss]⟩
    · exact ⟨_, handleConvert_parsed env r hmiss⟩
  · intro env r o ho
    by_cases hmiss : getParam r.query "width" = ""
    · unfold HandleThumbnail at ho
      rw [if_pos hmiss] at ho
      exact ⟨_, (Option.some.injEq _ _).mp ho |>.symm⟩
    · rcases haw : atoi (getParam r.query "width") with _ | w
      · unfold HandleThumbnail at ho
        rw [if_neg hmiss, haw] at ho
        exact ⟨_, (Option.some.injEq _ _).mp ho |>.symm⟩
      · rw [handleThumbnail_parsed env r hmiss haw] at ho
        rcases ht : ThumbnailImage env r.body w with _ | res
        · rw [ht] at ho
          cases ho
        · rw [ht] at ho
          exact ⟨_, ((Option.some.injEq _ _).mp ho).symm⟩
  · intro env rh
    rcases rh with ⟨code, err⟩ | ⟨code, data⟩
    · exact ⟨rfl, rfl⟩
    · exact ⟨rfl, rfl⟩

/-- C10 witness: a concrete thumbnail request on which the handler
returns, returning a non-nil image handler. -/
theorem handlers_always_respond_once_witness :
    ∃ rh, (some (RespHandler.imageH 200 [2, 50, 75]) : Option RespHandler) = some rh :=
  handlers_always_respond_once.2.2.1 toyEnv ⟨[("width", "50")], [9, 2, 3]⟩
    (some (RespHandler.imageH 200 [2, 50, 75])) (by decide)

theorem encodeImage_unsupported_iff (env : Env) (im : Img) (f : String) :
    (EncodeImage env im f).2 = some GoErr.unsupportedFormat ↔ f ∉ supportedFormats := by
  unfold EncodeImage
  by_cases h1 : f = formatJPEG
  · subst h1
    simp [supportedFormats]
  · by_cases h2 : f = formatPNG
    · subst h2
      simp [supportedFormats, h1]
    · by_cases h3 : f = formatGIF
      · subst h3
        simp [supportedFormats, h1, h2]
      · simp [supportedFormats, h1, h2, h3]

/-- C4: a `/convert` request whose `format` parameter is present but not
one of `jpeg`, `png`, `gif`, and whose body decodes, yields a 422
response with body `"unsupported format\n"`; and the set of formats
`EncodeImage` accepts (does not reject with `ErrUnsupportedFormat`) is
exactly `{jpeg, png, gif}`. -/
theorem convert_unsupported_format_422 (env : Env) (r : Req) (img : Img) (f0 : String)
    (hne : getParam r.query "format" ≠ "")
    (hns : getParam r.query "format" ∉ supportedFormats)
    (hdec : env.decode r.body = some (img, f0)) :
    HandleConvert env r = some (RespHandler.errorH 422 GoErr.unsupportedFormat) ∧
    stringBodiesOf (runRespHandler env (RespHandler.errorH 422 GoErr.unsupportedFormat)) =
      ["unsupported format\n"] ∧
    (∀ (im : Img) (f : String),
      (EncodeImage env im f).2 = some GoErr.unsupportedFormat ↔ f ∉ supportedFormats) := by
  refine ⟨?_, rfl, fun im f => encodeImage_unsupported_iff env im f⟩
  rw [handleConvert_parsed env r hne]
  have hc : ConvertImage env r.body (getParam r.query "format") =
      EncodeImage env img (getParam r.query "format") := by
    unfold ConvertImage
    rw [hdec]
  rw [hc]
  rcases hp : EncodeImage env img (getParam r.query "format") with ⟨data, err⟩
  have h2 : err = some GoErr.unsupportedFormat := by
    have := (encodeImage_unsupported_iff env img (getParam r.query "format")).mpr hns
    rw [hp] at this
    exact this
  subst h2
  simp [transformResult]

/-- C4 witness: `format=bmp` on a decodable body yields the 422
response. -/
theorem convert_unsupported_format_422_witness :
    HandleConvert toyEnv ⟨[("format", "bmp")], [9, 2, 3]⟩ =
      some (RespHandler.errorH 422 GoErr.unsupportedFormat) :=
  (convert_unsupported_format_422 toyEnv ⟨[("format", "bmp")], [9, 2, 3]⟩
    ⟨imageRect 0 0 2 3, []⟩ "png" (by decide) (by decide) (by decide)).1

/-- C5: on each of the three routes, when the parameters validate but
the body fails to decode, the transform returns `ErrInvalidImage` and
the handler responds 500 with that error; and the error-to-status
mapping shared by the three handlers is deterministic — success to 200,
`ErrUnsupportedFormat` to 422, every other error to 500 (parameter
errors are mapped to 400 before any transform runs). -/
theorem invalid_image_maps_to_500 (env : Env) (r : Req) :
    (∀ h w : Int,
      ¬(getParam r.query "height" = "" ∨ getParam r.query "width" = "") →
      atoi (getParam r.query "height") = some h →
      atoi (getParam r.query "width") = some w →
      env.decode r.body = none →
      HandleResize env r = some (RespHandler.errorH 500 GoErr.invalidImage)) ∧
    (getParam r.query "format" ≠ "" → env.decode r.body = none →
      HandleConvert env r = some (RespHandler.errorH 500 GoErr.invalidImage)) ∧
    (∀ w : Int, getParam r.query "width" ≠ "" →
      atoi (getParam r.query "width") = some w →
      env.decode r.body = none →
      HandleThumbnail env r = some (some (RespHandler.errorH 500 GoErr.invalidImage))) ∧
    (∀ p : List Nat × Option GoErr,
      respStatus (transformResult p) =
        if p.2 = none then 200
        else if p.2 = some GoErr.unsupportedFormat then 422 else 500) := by
  refine ⟨?_, ?_, ?_, ?_⟩
  · intro h w hmiss hah haw hdec
    rw [handleResize_parsed env r hmiss hah haw]
    have hres : ResizeImage env r.body h w = ([], some GoErr.invalidImage) := by
      unfold ResizeImage
      rw [hdec]
    rw [hres]
    simp [transformResult]
  · intro hne hdec
    rw [handleConvert_parsed env r hne]
    have hres : ConvertImage env r.body (getParam r.query "format") =
        ([], some GoErr.invalidImage) := by
      unfold ConvertImage
      rw [hdec]
    rw [hres]
    simp [transformResult]
  · intro w hne haw hdec
    rw [handleThumbnail_parsed env r hne haw]
    have hres : ThumbnailImage env r.body w = some ([], some GoErr.invalidImage) := by
      unfold ThumbnailImage
      rw [hdec]
    rw [hres]
    simp [transformResult]
  · intro p
    rcases p with ⟨data, err⟩
    rcases err with _ | e
    · simp [transformResult, respStatus]
    · by_cases he : e = GoErr.unsupportedFormat
      · subst he
        simp [transformResult, respStatus]
      · simp [transformResult, respStatus, he]

/-- C5 witness: undecodable (empty) bodies with valid parameters get 500
with the invalid-image error on all three routes. -/
theorem invalid_image_maps_to_500_witness :
    HandleResize toyEnv ⟨[("height", "2"), ("width", "2")], []⟩ =
      some (RespHandler.errorH 500 GoErr.invalidImage) ∧
    HandleConvert toyEnv ⟨[("format", "png")], []⟩ =
      some (RespHandler.errorH 500 GoErr.invalidImage) ∧
    HandleThumbnail toyEnv ⟨[("width", "3")], []⟩ =
      some (some (RespHandler.errorH 500 GoErr.invalidImage)) :=
  ⟨(invalid_image_maps_to_500 toyEnv ⟨[("height", "2"), ("width", "2")], []⟩).1
      2 2 (by decide) (by decide) (by decide) rfl,
   (invalid_image_maps_to_500 toyEnv ⟨[("format", "png")], []⟩).2.1 (by decide) rfl,
   (invalid_image_maps_to_500 toyEnv ⟨[("width", "3")], []⟩).2.2.1 3 (by decide) (by decide) rfl⟩

/-- C3 counterexample: `height=1&width=0` parses, yet `HandleResize`
does not return 400 — it invokes the transform and returns its 200
image response.  The handlers never check parsed values for
positivity. -/
theorem resize_zero_width_not_rejected :
    HandleResize toyEnv ⟨[("height", "1"), ("width", "0")], [9, 3, 4]⟩ =
      some (RespHandler.imageH 200 [2, 0, 1]) ∧
    respStatus (RespHandler.imageH 200 [2, 0, 1]) ≠ 400 :=
  ⟨by decide, by decide⟩

/-- C3 (amended): `/resize` returns 400 exactly when `height` or `width`
is missing (body `"missing required parameters\n"`) or fails to parse as
an integer (body `"invalid height: <value>\n"` respectively
`"invalid width: <value>\n"`); any value `Atoi` accepts — including zero
and negative integers — is passed to the transform, whose outcome is
mapped to 200, 422 or 500, never 400. -/
theorem resize_param_validation (env : Env) (r : Req) :
    ((getParam r.query "height" = "" ∨ getParam r.query "width" = "") →
      HandleResize env r =
        some (RespHandler.errorH 400 (GoErr.errorf "missing required parameters"))) ∧
    (¬(getParam r.query "height" = "" ∨ getParam r.query "width" = "") →
      (atoi (getParam r.query "height") = none →
        HandleResize env r =
          some (RespHandler.errorH 400
            (GoErr.errorf ("invalid height: " ++ getParam r.query "height")))) ∧
      (∀ h : Int, atoi (getParam r.query "height") = some h →
        atoi (getParam r.query "width") = none →
        HandleResize env r =
          some (RespHandler.errorH 400
            (GoErr.errorf ("invalid width: " ++ getParam r.query "width")))) ∧
      (∀ h w : Int, atoi (getParam r.query "height") = some h →
        atoi (getParam r.query "width") = some w →
        HandleResize env r = some (transformResult (ResizeImage env r.body h w)))) ∧
    (∀ p : List Nat × Option GoErr, respStatus (transformResult p) ≠ 400) ∧
    stringBodiesOf
        (runRespHandler env (RespHandler.errorH 400 (GoErr.errorf "missing required parameters"))) =
      ["missing required parameters\n"] ∧
    (∀ wp : String,
      stringBodiesOf
          (runRespHandler env (RespHandler.errorH 400 (GoErr.errorf ("invalid width: " ++ wp)))) =
        [("invalid width: " ++ wp) ++ "\n"]) := by
  refine ⟨?_, ?_, ?_, rfl, fun wp => rfl⟩
  · intro hmiss
    unfold HandleResize
    rw [if_pos hmiss]
  · intro hmiss
    refine ⟨?_, ?_, ?_⟩
    · intro hah
      unfold HandleResize
      rw [if_neg hmiss, hah]
    · intro h hah haw
      unfold HandleResize
      rw [if_neg hmiss, hah, haw]
    · intro h w hah haw
      exact handleResize_parsed env r hmiss hah haw
  · intro p
    rcases p with ⟨data, err⟩
    rcases err with _ | e
    · simp [transformResult, respStatus]
    · by_cases he : e = GoErr.unsupportedFormat
      · subst he
        simp [transformResult, respStatus]
      · simp [transformResult, respStatus, he]

/-- C3 witness: the missing-parameter, non-numeric-width and
parsed-value paths of the amended statement at concrete requests. -/
theorem resize_param_validation_witness :
    HandleResize toyEnv ⟨[], []⟩ =
      some (RespHandler.errorH 400 (GoErr.errorf "missing required parameters")) ∧
    HandleResize toyEnv ⟨[("height", "100"), ("width", "abc")], []⟩ =
      some (RespHandler.errorH 400 (GoErr.errorf "invalid width: abc")) ∧
    HandleResize toyEnv ⟨[("height", "50"), ("width", "-7")], [9, 3, 4]⟩ =
      some (transformResult (ResizeImage toyEnv [9, 3, 4] 50 (-7))) :=
  ⟨(resize_param_validation toyEnv ⟨[], []⟩).1 (by decide),
   ((resize_param_validation toyEnv ⟨[("height", "100"), ("width", "abc")], []⟩).2.1
      (by decide)).2.1 100 (by decide) (by decide),
   ((resize_param_validation toyEnv ⟨[("height", "50"), ("width", "-7")], [9, 3, 4]⟩).2.1
      (by decide)).2.2 50 (-7) (by decide) (by decide)⟩

/-- C7 counterexample: with `HOST=192.168.1.1` set in the environment
and `-host 10.0.0.1` passed on the command line, the resulting
configuration is `10.0.0.1` — the environment variable does NOT override
the flag's command-line value (`flag.VisitAll` runs before
`flag.Parse`, so the command line wins, as the repository's own
`TestParseFlags` asserts). -/
theorem env_var_does_not_override_cli_flag :
    ParseFlags (fun k => if k = "HOST" then some "192.168.1.1" else none)
        (some "10.0.0.1") none = ⟨"10.0.0.1", 8080⟩ ∧
    ("10.0.0.1" : String) ≠ "192.168.1.1" :=
  ⟨by decide, by decide⟩

/-- C7 (amended): host and port default to `"localhost"` and 8080 and
are settable via command-line flags; a set environment variable named
after the flag (uppercased, dashes to underscores) overrides the flag's
DEFAULT — the port value going through `flag`'s base-0
`strconv.ParseInt` (so `PORT=0x1f90` yields port 8080, `010` octal 8,
`0b101` binary 5) — but an explicit command-line flag overrides the
environment variable, not the other way round. -/
theorem parseFlags_defaults_env_then_cli (e : String → Option String)
    (hstr : String) (pint : Int) (aP : Option Int) :
    ParseFlags (fun _ => none) none none = ⟨"localhost", 8080⟩ ∧
    ParseFlags e (some hstr) (some pint) = ⟨hstr, pint⟩ ∧
    (ParseFlags e none aP).Host = (match e "HOST" with | some v => v | none => "localhost") ∧
    (ParseFlags e none none).Port =
      (match e "PORT" with | some v => flagSetInt v | none => 8080) ∧
    ParseFlags (fun k => if k = "PORT" then some "0x1f90" else none) none none =
      ⟨"localhost", 8080⟩ ∧
    flagSetInt "010" = 8 ∧ flagSetInt "0b101" = 5 ∧ flagSetInt "7070" = 7070 ∧
    toEnvKey "host" = "HOST" ∧ toEnvKey "port" = "PORT" ∧
    toEnvKey "my-flag" = "MY_FLAG" := by
  have hk1 : toEnvKey "host" = "HOST" := by decide
  have hk2 : toEnvKey "port" = "PORT" := by decide
  refine ⟨by decide, rfl, ?_, ?_, by decide, by decide, by decide, by decide,
    hk1, hk2, by decide⟩
  · unfold ParseFlags
    rw [hk1]
  · unfold ParseFlags
    rw [hk2]

theorem toy_roundtrip (im : Img) (f : String) (hf : f ∈ supportedFormats)
    (hx : 0 < im.bounds.Dx) (hy : 0 < im.bounds.Dy) :
    ∃ out im2 f2, EncodeImage toyEnv im f = (out, none) ∧ out ≠ [] ∧
      toyEnv.decode out = some (im2, f2) ∧ im2.bounds.Dx = im.bounds.Dx ∧
      im2.bounds.Dy = im.bounds.Dy := by
  have henc : EncodeImage toyEnv im f =
      ([2, im.bounds.Dx.toNat, im.bounds.Dy.toNat], none) := by
    simp only [supportedFormats, formatJPEG, formatPNG, formatGIF,
      List.mem_cons, List.mem_singleton, List.not_mem_nil, or_false] at hf
    rcases hf with rfl | rfl | rfl <;>
      simp [EncodeImage, toyEnv, toyEnc, formatJPEG, formatPNG, formatGIF]
  have hxn : 0 < im.bounds.Dx.toNat := by omega
  have hyn : 0 < im.bounds.Dy.toNat := by omega
  have hxc : (0 : Int) ≤ (im.bounds.Dx.toNat : Int) := Int.natCast_nonneg _
  have hyc : (0 : Int) ≤ (im.bounds.Dy.toNat : Int) := Int.natCast_nonneg _
  refine ⟨[2, im.bounds.Dx.toNat, im.bounds.Dy.toNat],
    ⟨imageRect 0 0 (im.bounds.Dx.toNat : Int) (im.bounds.Dy.toNat : Int), []⟩, "png",
    henc, by simp, ?_, ?_, ?_⟩
  · show toyDecode [2, im.bounds.Dx.toNat, im.bounds.Dy.toNat] = _
    unfold toyDecode
    simp [hxn, hyn]
  · show (imageRect 0 0 ((im.bounds.Dx.toNat : Int)) ((im.bounds.Dy.toNat : Int))).Dx = _
    rw [imageRect_Dx_of_nonneg hxc hyc]
    omega
  · show (imageRect 0 0 ((im.bounds.Dx.toNat : Int)) ((im.bounds.Dy.toNat : Int))).Dy = _
    rw [imageRect_Dy_of_nonneg hxc hyc]
    omega

/-- C2: for a decodable body whose detected format is one of
jpeg/png/gif and positive requested height and width, `ResizeImage`
builds its destination rectangle as exactly `width × height` (no
aspect-ratio preservation), resamples the source into it, and
`HandleResize` returns 200 with non-empty output that decodes to exactly
the requested dimensions.  The codec black box is assumed (hypothesis
`rt`) to encode any positive-dimension raster successfully into
non-empty bytes that decode back with the same dimensions. -/
theorem resize_exact_dimensions (env : Env) (r : Req) (h w : Int) (img : Img) (fmt : String)
    (hne : ¬(getParam r.query "height" = "" ∨ getParam r.query "width" = ""))
    (hah : atoi (getParam r.query "height") = some h)
    (haw : atoi (getParam r.query "width") = some w)
    (hh : 0 < h) (hw : 0 < w)
    (hdec : env.decode r.body = some (img, fmt))
    (hfmt : fmt ∈ supportedFormats)
    (rt : ∀ (im : Img) (f : String), f ∈ supportedFormats →
      0 < im.bounds.Dx → 0 < im.bounds.Dy →
      ∃ out im2 f2, EncodeImage env im f = (out, none) ∧ out ≠ [] ∧
        env.decode out = some (im2, f2) ∧ im2.bounds.Dx = im.bounds.Dx ∧
        im2.bounds.Dy = im.bounds.Dy) :
    (imageRect 0 0 w h).Dx = w ∧ (imageRect 0 0 w h).Dy = h ∧
    ∃ out, HandleResize env r = some (RespHandler.imageH 200 out) ∧ out ≠ [] ∧
      ∃ im2 f2, env.decode out = some (im2, f2) ∧
        im2.bounds.Dx = w ∧ im2.bounds.Dy = h := by
  have hDx := imageRect_Dx_of_nonneg (le_of_lt hw) (le_of_lt hh)
  have hDy := imageRect_Dy_of_nonneg (le_of_lt hw) (le_of_lt hh)
  refine ⟨hDx, hDy, ?_⟩
  have hb : (catmullRomScale env (newRGBA (imageRect 0 0 w h))
      (imageRect 0 0 w h) img).bounds = imageRect 0 0 w h := rfl
  obtain ⟨out, im2, f2, henc, hout, hdec2, hDx2, hDy2⟩ :=
    rt (catmullRomScale env (newRGBA (imageRect 0 0 w h)) (imageRect 0 0 w h) img) fmt hfmt
      (by rw [hb, hDx]; exact hw) (by rw [hb, hDy]; exact hh)
  have hres : ResizeImage env r.body h w = (out, none) := by
    unfold ResizeImage
    rw [hdec]
    exact henc
  refine ⟨out, ?_, hout, im2, f2, hdec2, by rw [hDx2, hb, hDx], by rw [hDy2, hb, hDy]⟩
  rw [handleResize_parsed env r hne hah haw, hres]
  rfl

/-- C2 witness: `height=5&width=7` on a decodable 3×4 body yields a 200
image whose bytes decode to a 7-wide, 5-high raster in the toy
environment. -/
theorem resize_exact_dimensions_witness :
    ∃ out, HandleResize toyEnv ⟨[("height", "5"), ("width", "7")], [9, 3, 4]⟩ =
        some (RespHandler.imageH 200 out) ∧ out ≠ [] ∧
      ∃ im2 f2, toyEnv.decode out = some (im2, f2) ∧
        im2.bounds.Dx = 7 ∧ im2.bounds.Dy = 5 :=
  (resize_exact_dimensions toyEnv ⟨[("height", "5"), ("width", "7")], [9, 3, 4]⟩ 5 7
    ⟨imageRect 0 0 3 4, []⟩ "png" (by decide) (by decide) (by decide) (by decide)
    (by decide) (by decide) (by decide) toy_roundtrip).2.2

/-- C1 counterexample: a 2×3 source (width 2 > 0, height 3) with
requested thumbnail width -1.  The claim, quantified over every
requested width, demands output width -1 and output height
`floor(3 * (-1) / 2) = -2`; the code computes the height with Go's
truncating division (-1, not -2) and `image.Rect` canonicalizes the
negative rectangle, so the encoded output decodes as a 1×1 image. -/
theorem thumbnail_negative_width_counterexample :
    ThumbnailImage toyEnv [9, 2, 3] (-1) = some ([2, 1, 1], none) ∧
    toyEnv.decode [9, 2, 3] = some (⟨imageRect 0 0 2 3, []⟩, "png") ∧
    (imageRect 0 0 2 3).Dx = 2 ∧ (imageRect 0 0 2 3).Dy = 3 ∧
    toyEnv.decode [2, 1, 1] = some (⟨imageRect 0 0 1 1, []⟩, "png") ∧
    (imageRect 0 0 1 1).Dx = 1 ∧ ((1 : Int) ≠ -1) ∧
    Int.fdiv (3 * (-1)) 2 = -2 ∧
    (imageRect 0 0 1 1).Dy ≠ Int.fdiv (3 * (-1)) 2 := by
  refine ⟨by decide, by decide, by decide, by decide, by decide, by decide,
    by decide, by decide, by decide⟩

/-- C1 (amended): for a decoded source of positive width `sw` and
non-negative height `sh`, and a NON-NEGATIVE requested width `w` with
`sh * w` within the 64-bit range, `ThumbnailImage` resamples into — and
hands the encoder — a destination raster of width exactly `w` and height
exactly `floor(sh * w / sw)`; and whenever that height is positive, the
format is supported and the codec round-trips positive-dimension rasters
(hypothesis `rt`), the encoded output is non-empty and decodes to
exactly those dimensions.  For negative `w` the claim fails (truncating
division and rectangle canonicalization), as the counterexample
records. -/
theorem thumbnail_preserves_aspect_ratio (env : Env) (body : List Nat) (w : Int)
    (img : Img) (fmt : String)
    (hdec : env.decode body = some (img, fmt))
    (hsw : 0 < img.bounds.Dx) (hsh : 0 ≤ img.bounds.Dy) (hw : 0 ≤ w)
    (hbound : img.bounds.Dy * w < 2 ^ 63) :
    (∃ pix : List Nat,
      ThumbnailImage env body w =
        some (EncodeImage env
          ⟨imageRect 0 0 w (Int.fdiv (img.bounds.Dy * w) img.bounds.Dx), pix⟩ fmt) ∧
      (imageRect 0 0 w (Int.fdiv (img.bounds.Dy * w) img.bounds.Dx)).Dx = w ∧
      (imageRect 0 0 w (Int.fdiv (img.bounds.Dy * w) img.bounds.Dx)).Dy =
        Int.fdiv (img.bounds.Dy * w) img.bounds.Dx) ∧
    (0 < Int.fdiv (img.bounds.Dy * w) img.bounds.Dx →
      0 < w →
      fmt ∈ supportedFormats →
      (∀ (im : Img) (f : String), f ∈ supportedFormats →
        0 < im.bounds.Dx → 0 < im.bounds.Dy →
        ∃ out im2 f2, EncodeImage env im f = (out, none) ∧ out ≠ [] ∧
          env.decode out = some (im2, f2) ∧ im2.bounds.Dx = im.bounds.Dx ∧
          im2.bounds.Dy = im.bounds.Dy) →
      ∃ out im2 f2, ThumbnailImage env body w = some (out, none) ∧ out ≠ [] ∧
        env.decode out = some (im2, f2) ∧ im2.bounds.Dx = w ∧
        im2.bounds.Dy = Int.fdiv (img.bounds.Dy * w) img.bounds.Dx) := by
  have hprod : (0 : Int) ≤ img.bounds.Dy * w := mul_nonneg hsh hw
  have hgm : goMul img.bounds.Dy w = img.bounds.Dy * w := by
    unfold goMul
    exact wrap64_eq_self (by linarith) hbound
  have hswle : (0 : Int) ≤ img.bounds.Dx := le_of_lt hsw
  have htd : Int.tdiv (img.bounds.Dy * w) img.bounds.Dx =
      (img.bounds.Dy * w) / img.bounds.Dx := Int.tdiv_eq_ediv hprod hswle
  have hfd : Int.fdiv (img.bounds.Dy * w) img.bounds.Dx =
      (img.bounds.Dy * w) / img.bounds.Dx := Int.fdiv_eq_ediv _ hswle
  have hq0 : (0 : Int) ≤ (img.bounds.Dy * w) / img.bounds.Dx :=
    Int.ediv_nonneg hprod hswle
  have hqle : (img.bounds.Dy * w) / img.bounds.Dx ≤ img.bounds.Dy * w :=
    Int.ediv_le_self _ hprod
  have hdiv : goIntDiv (goMul img.bounds.Dy w) img.bounds.Dx =
      some (Int.fdiv (img.bounds.Dy * w) img.bounds.Dx) := by
    unfold goIntDiv
    rw [if_neg (by omega : ¬img.bounds.Dx = 0), hgm, htd,
      wrap64_eq_self (by linarith) (by linarith), hfd]
  have hrun : ThumbnailImage env body w =
      some (EncodeImage env
        (catmullRomScale env
          (newRGBA (imageRect 0 0 w (Int.fdiv (img.bounds.Dy * w) img.bounds.Dx)))
          (imageRect 0 0 w (Int.fdiv (img.bounds.Dy * w) img.bounds.Dx)) img) fmt) := by
    unfold ThumbnailImage
    rw [hdec]
    dsimp only
    rw [hdiv]
  have hht0 : (0 : Int) ≤ Int.fdiv (img.bounds.Dy * w) img.bounds.Dx := by
    rw [hfd]; exact hq0
  have hDx := imageRect_Dx_of_nonneg hw hht0
  have hDy := imageRect_Dy_of_nonneg hw hht0
  constructor
  · exact ⟨_, hrun, hDx, hDy⟩
  · intro hpos hwpos hfmt rt
    have hb : (catmullRomScale env
        (newRGBA (imageRect 0 0 w (Int.fdiv (img.bounds.Dy * w) img.bounds.Dx)))
        (imageRect 0 0 w (Int.fdiv (img.bounds.Dy * w) img.bounds.Dx)) img).bounds =
        imageRect 0 0 w (Int.fdiv (img.bounds.Dy * w) img.bounds.Dx) := rfl
    obtain ⟨out, im2, f2, henc, hout, hdec2, hDx2, hDy2⟩ :=
      rt _ fmt hfmt (by rw [hb, hDx]; exact hwpos) (by rw [hb, hDy]; exact hpos)
    exact ⟨out, im2, f2, by rw [hrun, henc], hout, hdec2,
      by rw [hDx2, hb, hDx], by rw [hDy2, hb, hDy]⟩

/-- C1 witness: a 2×3 source with requested width 5 yields a raster —
and, through the toy codec, an output image — of width 5 and height
`floor(3 * 5 / 2) = 7`. -/
theorem thumbnail_preserves_aspect_ratio_witness :
    ∃ out im2 f2, ThumbnailImage toyEnv [9, 2, 3] 5 = some (out, none) ∧ out ≠ [] ∧
      toyEnv.decode out = some (im2, f2) ∧ im2.bounds.Dx = 5 ∧ im2.bounds.Dy = 7 := by
  have h := (thumbnail_preserves_aspect_ratio toyEnv [9, 2, 3] 5
    ⟨imageRect 0 0 2 3, []⟩ "png" (by decide) (by decide) (by decide) (by decide)
    (by decide)).2 (by decide) (by decide) (by decide) toy_roundtrip
  have he : Int.fdiv ((⟨imageRect 0 0 2 3, []⟩ : Img).bounds.Dy * 5)
      (⟨imageRect 0 0 2 3, []⟩ : Img).bounds.Dx = 7 := by decide
  rw [he] at h
  exact h
